import Mathlib

/-!
Shallow embedding of crymap's mailbox-select path
(`src/account/mailbox/select.rs`): rollup classification
(`classify_rollups`), the select-time state load with its fallback to the
empty state, the recency frontier, and the background garbage-collection
task spawned after a writable select.

Conventions of the embedding:
* `std::time::Duration` is modelled as a natural number of nanoseconds
  (`Duration` compares by total length, which is what `Ord` on it does).
* `Cid`/`Uid` are strictly positive `u32` newtypes in the source; the
  claims here never exercise overflow, so they are modelled as `Nat`.
* `PathBuf` is modelled as `String` with lexicographic order; it only
  participates as a tie-breaker in `RollupInfo`'s derived order and as an
  opaque payload of the remove-file action.
* Disk and process effects (reading a rollup file, the two external GC
  calls, `poll`) are abstracted as function parameters or success flags,
  and the background task is modelled as the trace of actions it performs.
-/

namespace Crymap

/-- Durations in nanoseconds. -/
abbrev Duration := Nat

def Duration.fromMillis (m : Nat) : Duration := m * 1000000

def Duration.fromSecs (s : Nat) : Duration := s * 1000000000

/-- The maximum number of rollup files that can exist before deletion with
the shorter grace period starts (`EXCESS_ROLLUP_THRESHOLD` in the source). -/
def EXCESS_ROLLUP_THRESHOLD : Nat := 4

/-- Grace period after which a non-latest rollup and its transactions are
deleted (24 hours outside `cfg(test)`). -/
def OLD_ROLLUP_GRACE_PERIOD : Duration := Duration.fromSecs (24 * 3600)

/-- Grace period for aggressive rollup-only deletion when over the
threshold (60 seconds outside `cfg(test)`). -/
def EXCESS_ROLLUP_GRACE_PERIOD : Duration := Duration.fromSecs 60

/-- Mirror of the `RollupInfo` struct, fields in source order (the derived
`Ord` is lexicographic in declaration order, `cid` first). -/
structure RollupInfo where
  cid : Nat
  age : Duration
  path : String
  delete_rollup : Bool
  delete_transactions : Bool
deriving DecidableEq, Repr

/-- The key realised by Rust's `#[derive(PartialOrd, Ord)]` on
`RollupInfo`: lexicographic comparison of the fields in declaration
order. -/
def rollupKey (r : RollupInfo) :
    Lex (Nat × Lex (Duration × Lex (String × Lex (Bool × Bool)))) :=
  toLex (r.cid, toLex (r.age, toLex (r.path,
    toLex (r.delete_rollup, r.delete_transactions))))

/-- The `≤` relation realised by the derived `Ord`. -/
def rollupLE (a b : RollupInfo) : Prop :=
  rollupKey a ≤ rollupKey b

instance : DecidableRel rollupLE :=
  fun a b => inferInstanceAs (Decidable (rollupKey a ≤ rollupKey b))

instance : IsTotal RollupInfo rollupLE :=
  ⟨fun a b => le_total (rollupKey a) (rollupKey b)⟩

instance : IsTrans RollupInfo rollupLE :=
  ⟨fun _ _ _ => le_trans⟩

instance : IsAntisymm RollupInfo rollupLE :=
  ⟨fun a b h1 h2 => by
    have h := le_antisymm h1 h2
    cases a; cases b
    simp only [rollupKey, toLex, Equiv.refl_apply, Prod.mk.injEq] at h
    simp_all⟩

/-- Model of `rollups.sort_unstable()`: the sorted-by-derived-`Ord`
permutation of the list (unique here because the order is antisymmetric). -/
def sortRollups (l : List RollupInfo) : List RollupInfo :=
  l.insertionSort rollupLE

/-- First pass of `classify_rollups`: every rollup in `rollups[..len-1]`
(i.e. all but the greatest) older than the OLD grace period has both
`delete_rollup` and `delete_transactions` set. -/
def markOld (old : Duration) : List RollupInfo → List RollupInfo
  | [] => []
  | [r] => [r]
  | r :: rest =>
      (if old ≤ r.age then
        { r with delete_rollup := true, delete_transactions := true }
      else r) :: markOld old rest

/-- Second pass of `classify_rollups`: every rollup in
`rollups[..len - EXCESS_ROLLUP_THRESHOLD]` (the `k` oldest) older than the
EXCESS grace period has `delete_rollup` set. -/
def markExcess (excess : Duration) : Nat → List RollupInfo → List RollupInfo
  | _, [] => []
  | 0, l => l
  | k + 1, r :: rest =>
      (if excess ≤ r.age then { r with delete_rollup := true } else r)
        :: markExcess excess k rest

/-- Mirror of `classify_rollups`: sort by the derived order (so that the
rollup to load from is last), mark rollups older than `old` other than the
last for full deletion, and, when there are more than
`EXCESS_ROLLUP_THRESHOLD` rollups, mark the excess oldest ones older than
`excess` for rollup-only deletion. The two grace periods are parameters
because the source selects them by `cfg(test)`. -/
def classify_rollups (old excess : Duration) (rollups : List RollupInfo) :
    List RollupInfo :=
  if rollups.isEmpty then rollups
  else
    let sorted := sortRollups rollups
    let len := sorted.length
    let marked := markOld old sorted
    if EXCESS_ROLLUP_THRESHOLD < len then
      markExcess excess (len - EXCESS_ROLLUP_THRESHOLD) marked
    else marked

/-- Effect of `classify_rollups` on the element at position `i` of the
sorted list of `n` rollups: first the OLD-grace marking (skipping the last
position), then the EXCESS marking of the `n - EXCESS_ROLLUP_THRESHOLD`
first positions when over the threshold. -/
def classifyStep (old excess : Duration) (n i : Nat) (s : RollupInfo) :
    RollupInfo :=
  let s1 :=
    if i < n - 1 ∧ old ≤ s.age then
      { s with delete_rollup := true, delete_transactions := true }
    else s
  if EXCESS_ROLLUP_THRESHOLD < n ∧ i < n - EXCESS_ROLLUP_THRESHOLD ∧
      excess ≤ s1.age then
    { s1 with delete_rollup := true }
  else s1

/-- Modelled from the spec: `Modseq` (its definition is not under `src/`),
the 63-bit composite of a UID component and a CID component; only the
components and the `Modseq::uid` accessor matter to the claims here. -/
structure Modseq where
  uid : Nat
  cid : Nat
deriving DecidableEq, Repr

/-- Modelled from the spec: `MailboxState` (its definition is not under
`src/`); the select path only reads `max_modseq`, the Modseq of the last
applied change, absent on the empty state. -/
structure MailboxState where
  max_modseq : Option Modseq
deriving DecidableEq, Repr

/-- Modelled from the spec: `MailboxState::new`, the empty state used when
there is no rollup or the rollup cannot be read; it has no max modseq. -/
def MailboxState.mk_empty : MailboxState := ⟨none⟩

/-- Actions performed by the background task spawned by a writable select,
in execution order. -/
inductive GcAction where
  | msgGc (min_retained : Nat)
  | chgGc (floor : Nat)
  | removeRollup (path : String)
deriving DecidableEq, Repr

/-- Mirror of the `expunge_before_cid` computation in `select`: the
greatest CID among the rollups marked `delete_transactions`, `Cid(0)` if
there is none. -/
def expunge_before_cid (rollups : List RollupInfo) : Nat :=
  (((rollups.filter fun r => r.delete_transactions).map
    fun r => r.cid).max?).getD 0

/-- Trace of the background task spawned by `select`: message-store GC
with floor 0; if it succeeded, change GC with `expunge_before_cid`; if
that succeeded too, removal of every rollup file marked `delete_rollup`.
`msgGcOk`/`chgGcOk` abstract the outcomes of the two external GC calls (a
failed call is logged and ends the task early). -/
def background_task (rollups : List RollupInfo) (msgGcOk chgGcOk : Bool) :
    List GcAction :=
  GcAction.msgGc 0 ::
    if msgGcOk then
      GcAction.chgGc (expunge_before_cid rollups) ::
        (if chgGcOk then
          (rollups.filter fun r => r.delete_rollup).map
            fun r => GcAction.removeRollup r.path
        else [])
    else []

/-- Errors `select` can surface; the only fallible step it propagates is
the initial `poll` (rollup-read and GC failures are logged instead). -/
inductive SelectError where
  | pollFailed
deriving DecidableEq, Repr

/-- Observable outcome of `select` in this model: the state after the
initial poll, the recency frontier, the rollup files whose deserialisation
was attempted, and the trace of the spawned background task. -/
structure SelectModelResult where
  state : MailboxState
  recency_frontier : Option Nat
  rollup_reads : List RollupInfo
  background : List GcAction
deriving DecidableEq, Repr

/-- State loaded at select time: deserialise the popped (greatest) rollup;
no rollup at all, or a failed read (logged in the source), yields the
empty state. -/
def loaded_state (raw : List RollupInfo)
    (read_state_file : RollupInfo → Option MailboxState) : MailboxState :=
  match (classify_rollups OLD_ROLLUP_GRACE_PERIOD
      EXCESS_ROLLUP_GRACE_PERIOD raw).getLast? with
  | none => MailboxState.mk_empty
  | some r =>
    match read_state_file r with
    | some st => st
    | none => MailboxState.mk_empty

/-- Mirror of `StatefulMailbox::select`: list and classify the rollups,
pop the last (greatest) one and load it (falling back to the empty state),
fix the recency frontier from the loaded state, run the initial poll, and,
unless read-only, spawn the background GC task over the remaining
classified rollups. `raw` is the unclassified listing, `read_state_file`
the rollup deserialiser, `poll` the transaction-replay step. -/
def select (raw : List RollupInfo)
    (read_state_file : RollupInfo → Option MailboxState)
    (read_only msgGcOk chgGcOk : Bool)
    (poll : MailboxState → Except SelectError MailboxState) :
    Except SelectError SelectModelResult :=
  let rollups := classify_rollups OLD_ROLLUP_GRACE_PERIOD
    EXCESS_ROLLUP_GRACE_PERIOD raw
  let state := loaded_state raw read_state_file
  let frontier := state.max_modseq.map Modseq.uid
  match poll state with
  | Except.error e => Except.error e
  | Except.ok polled =>
    Except.ok
      { state := polled
        recency_frontier := frontier
        rollup_reads :=
          match rollups.getLast? with
          | none => []
          | some r => [r]
        background :=
          if read_only then []
          else background_task rollups.dropLast msgGcOk chgGcOk }

@[simp]
theorem markOld_length (old : Duration) :
    ∀ l : List RollupInfo, (markOld old l).length = l.length
  | [] => rfl
  | [_] => rfl
  | r :: s :: t => by
    simp only [markOld, List.length_cons, markOld_length old (s :: t)]

@[simp]
theorem markExcess_length (excess : Duration) :
    ∀ (k : Nat) (l : List RollupInfo),
      (markExcess excess k l).length = l.length
  | _, [] => by cases ‹Nat› <;> rfl
  | 0, _ :: _ => rfl
  | k + 1, r :: rest => by
    simp only [markExcess, List.length_cons, markExcess_length excess k rest]

theorem markOld_getElem (old : Duration) :
    ∀ (l : List RollupInfo) (i : Nat) (_hi : i < l.length)
      (h2 : i < (markOld old l).length),
      (markOld old l)[i] =
        if i < l.length - 1 ∧ old ≤ l[i].age then
          { l[i] with delete_rollup := true, delete_transactions := true }
        else l[i]
  | [], i, hi, _ => absurd hi (by simp)
  | [r], 0, _, _ => by simp [markOld]
  | [r], i + 1, hi, _ => by simp at hi
  | r :: s :: t, 0, _, _ => by
    by_cases h : old ≤ r.age <;> simp [markOld, h]
  | r :: s :: t, i + 1, hi, h2 => by
    have ih := markOld_getElem old (s :: t) i (by simpa using hi)
      (by
        simp only [markOld_length, List.length_cons]
        exact Nat.lt_of_succ_lt_succ (by simpa using hi))
    simp only [markOld, List.getElem_cons_succ, ih, List.length_cons]
    have harith : i + 1 < t.length + 1 + 1 - 1 ↔ i < t.length + 1 - 1 := by
      omega
    rw [if_congr (and_congr harith Iff.rfl) rfl rfl]

theorem markExcess_getElem (excess : Duration) :
    ∀ (k : Nat) (l : List RollupInfo) (i : Nat) (_hi : i < l.length)
      (h2 : i < (markExcess excess k l).length),
      (markExcess excess k l)[i] =
        if i < k ∧ excess ≤ l[i].age then
          { l[i] with delete_rollup := true }
        else l[i]
  | _, [], i, hi, _ => absurd hi (by simp)
  | 0, r :: rest, i, _, _ => by simp [markExcess]
  | k + 1, r :: rest, 0, _, _ => by
    by_cases h : excess ≤ r.age <;> simp [markExcess, h]
  | k + 1, r :: rest, i + 1, hi, h2 => by
    have ih := markExcess_getElem excess k rest i (by simpa using hi)
      (by
        simp only [markExcess_length]
        exact Nat.lt_of_succ_lt_succ (by simpa using hi))
    simp only [markExcess, List.getElem_cons_succ, ih]
    have harith : i + 1 < k + 1 ↔ i < k := by omega
    rw [if_congr (and_congr harith Iff.rfl) rfl rfl]

@[simp]
theorem sortRollups_length (l : List RollupInfo) :
    (sortRollups l).length = l.length :=
  List.length_insertionSort _ l

theorem sortRollups_perm (l : List RollupInfo) : (sortRollups l).Perm l :=
  List.perm_insertionSort _ l

theorem sortRollups_sorted (l : List RollupInfo) :
    List.Sorted rollupLE (sortRollups l) :=
  List.sorted_insertionSort _ l

theorem rollupLE_cid_le {a b : RollupInfo} (h : rollupLE a b) :
    a.cid ≤ b.cid := by
  simp only [rollupLE, rollupKey] at h
  rcases (Prod.Lex.le_iff _ _).mp h with hlt | ⟨heq, -⟩
  · exact le_of_lt hlt
  · exact le_of_eq heq

theorem rollupLE_of_cid_lt {a b : RollupInfo} (h : a.cid < b.cid) :
    rollupLE a b := by
  simp only [rollupLE, rollupKey]
  exact (Prod.Lex.le_iff _ _).mpr (Or.inl h)

@[simp]
theorem classify_rollups_length (old excess : Duration)
    (l : List RollupInfo) :
    (classify_rollups old excess l).length = l.length := by
  unfold classify_rollups
  by_cases h : l.isEmpty
  · simp [h]
  · simp only [h, if_false, Bool.false_eq_true]
    split <;> simp

theorem classify_rollups_getElem (old excess : Duration)
    (l : List RollupInfo) (i : Nat)
    (h2 : i < (classify_rollups old excess l).length)
    (hs : i < (sortRollups l).length) :
    (classify_rollups old excess l)[i] =
      classifyStep old excess l.length i ((sortRollups l)[i]) := by
  have hi : i < l.length := by simpa using h2
  have hne : l.isEmpty = false := by
    rw [List.isEmpty_eq_false]
    intro h; subst h; simp at hi
  unfold classify_rollups
  simp only [hne, Bool.false_eq_true, if_false]
  by_cases hth : EXCESS_ROLLUP_THRESHOLD < (sortRollups l).length
  · simp only [hth, if_true]
    rw [markExcess_getElem excess _ _ i (by simpa using hi)
      (by simp [hi])]
    rw [markOld_getElem old _ i (by simpa using hi) (by simp [hi])]
    have hth' : EXCESS_ROLLUP_THRESHOLD < l.length := by simpa using hth
    simp only [classifyStep, sortRollups_length, hth', true_and]
  · simp only [hth, if_false]
    rw [markOld_getElem old _ i (by simpa using hi) (by simp [hi])]
    have hth' : ¬ EXCESS_ROLLUP_THRESHOLD < l.length := by simpa using hth
    simp only [classifyStep, sortRollups_length, hth', false_and, if_false]

theorem classifyStep_cid (old excess : Duration) (n i : Nat)
    (s : RollupInfo) : (classifyStep old excess n i s).cid = s.cid := by
  simp only [classifyStep]
  split_ifs <;> rfl

theorem classifyStep_age (old excess : Duration) (n i : Nat)
    (s : RollupInfo) : (classifyStep old excess n i s).age = s.age := by
  simp only [classifyStep]
  split_ifs <;> rfl

theorem sortRollups_mem {l : List RollupInfo} {r : RollupInfo} :
    r ∈ sortRollups l ↔ r ∈ l :=
  (sortRollups_perm l).mem_iff

theorem sortRollups_cid_le (l : List RollupInfo) {i j : Nat}
    (hi : i < (sortRollups l).length) (hj : j < (sortRollups l).length)
    (hij : i ≤ j) : (sortRollups l)[i].cid ≤ (sortRollups l)[j].cid := by
  rcases Nat.eq_or_lt_of_le hij with rfl | hlt
  · exact le_refl _
  · exact rollupLE_cid_le
      (List.pairwise_iff_getElem.mp (sortRollups_sorted l) i j hi hj hlt)

theorem sortRollups_cid_lt (l : List RollupInfo)
    (hd : l.Pairwise fun a b => a.cid ≠ b.cid) {i j : Nat}
    (hi : i < (sortRollups l).length) (hj : j < (sortRollups l).length)
    (hij : i < j) : (sortRollups l)[i].cid < (sortRollups l)[j].cid := by
  have hne : (sortRollups l).Pairwise (fun a b => a.cid ≠ b.cid) :=
    ((sortRollups_perm l).pairwise_iff (fun h => Ne.symm h)).mpr hd
  exact lt_of_le_of_ne (sortRollups_cid_le l hi hj (le_of_lt hij))
    (List.pairwise_iff_getElem.mp hne i j hi hj hij)

theorem classifyStep_last (old excess : Duration) (n : Nat)
    (s : RollupInfo) : classifyStep old excess n (n - 1) s = s := by
  simp only [classifyStep, EXCESS_ROLLUP_THRESHOLD]
  have hs1 : (if n - 1 < n - 1 ∧ old ≤ s.age then
      { s with delete_rollup := true, delete_transactions := true }
    else s) = s := if_neg (by rintro ⟨h, -⟩; omega)
  rw [hs1, if_neg (by rintro ⟨h4, h5, -⟩; omega)]

theorem classifyStep_old_marked (old excess : Duration) (n i : Nat)
    (s : RollupInfo) (h1 : i < n - 1) (h2 : old ≤ s.age) :
    (classifyStep old excess n i s).delete_rollup = true ∧
    (classifyStep old excess n i s).delete_transactions = true := by
  simp only [classifyStep]
  have hs1 : (if i < n - 1 ∧ old ≤ s.age then
      { s with delete_rollup := true, delete_transactions := true }
    else s) = { s with delete_rollup := true, delete_transactions := true } :=
    if_pos ⟨h1, h2⟩
  rw [hs1]
  split_ifs <;> exact ⟨rfl, rfl⟩

theorem classifyStep_dt (old excess : Duration) (n i : Nat)
    (s : RollupInfo) :
    (classifyStep old excess n i s).delete_transactions =
      if i < n - 1 ∧ old ≤ s.age then true else s.delete_transactions := by
  simp only [classifyStep]
  split_ifs <;> rfl

theorem classifyStep_excess_marked (old excess : Duration) (n i : Nat)
    (s : RollupInfo) (h4 : EXCESS_ROLLUP_THRESHOLD < n)
    (hk : i < n - EXCESS_ROLLUP_THRESHOLD) (ha : excess ≤ s.age) :
    (classifyStep old excess n i s).delete_rollup = true := by
  simp only [classifyStep]
  by_cases hc1 : i < n - 1 ∧ old ≤ s.age
  · have hs1 : (if i < n - 1 ∧ old ≤ s.age then
        { s with delete_rollup := true, delete_transactions := true }
      else s) =
        { s with delete_rollup := true, delete_transactions := true } :=
      if_pos hc1
    rw [hs1]
    split_ifs <;> rfl
  · have hs1 : (if i < n - 1 ∧ old ≤ s.age then
        { s with delete_rollup := true, delete_transactions := true }
      else s) = s := if_neg hc1
    rw [hs1, if_pos ⟨h4, hk, ha⟩]

/-- C1: for every non-empty list of rollups with pairwise-distinct CIDs
(and, as `list_rollups` constructs them, no prior delete marks), the
greatest-CID rollup in the output of `classify_rollups` has neither
`delete_rollup` nor `delete_transactions` set, for any grace periods. -/
theorem C1_latest_rollup_never_marked (old excess : Duration)
    (l : List RollupInfo)
    (hd : l.Pairwise fun a b => a.cid ≠ b.cid)
    (hclean : ∀ r ∈ l,
      r.delete_rollup = false ∧ r.delete_transactions = false)
    (r : RollupInfo) (hr : r ∈ classify_rollups old excess l)
    (hmax : ∀ r' ∈ classify_rollups old excess l, r'.cid ≤ r.cid) :
    r.delete_rollup = false ∧ r.delete_transactions = false := by
  obtain ⟨i, hilen, hie⟩ := List.mem_iff_getElem.mp hr
  have hin : i < l.length := by simpa using hilen
  have hsn : i < (sortRollups l).length := by simpa using hin
  have hlast : i = l.length - 1 := by
    by_contra hne
    have hilt : i < l.length - 1 := by omega
    have hjlen : l.length - 1 < (classify_rollups old excess l).length := by
      simp
      omega
    have hjs : l.length - 1 < (sortRollups l).length := by
      simp
      omega
    have hle := hmax _ (List.getElem_mem hjlen)
    rw [classify_rollups_getElem old excess l _ hjlen hjs,
      classifyStep_cid] at hle
    rw [← hie, classify_rollups_getElem old excess l i hilen hsn,
      classifyStep_cid] at hle
    exact absurd hle
      (not_le_of_lt (sortRollups_cid_lt l hd hsn hjs hilt))
  subst hlast
  rw [classify_rollups_getElem old excess l _ hilen hsn] at hie
  rw [classifyStep_last] at hie
  subst hie
  exact hclean _ (sortRollups_mem.mp (List.getElem_mem _))

/-- Witness for C1 at a concrete two-rollup input. -/
theorem C1_witness :
    (⟨2, 0, "", false, false⟩ : RollupInfo).delete_rollup = false ∧
    (⟨2, 0, "", false, false⟩ : RollupInfo).delete_transactions = false :=
  C1_latest_rollup_never_marked 1 1
    [⟨1, 0, "", false, false⟩, ⟨2, 0, "", false, false⟩]
    (by decide) (by decide) ⟨2, 0, "", false, false⟩ (by decide) (by decide)

/-- C2: with pairwise-distinct CIDs and unmarked input, every output
rollup that is not the greatest-CID one and whose age is at least the OLD
grace period gets both `delete_rollup` and `delete_transactions`, and
every rollup younger than that period keeps `delete_transactions`
unset. -/
theorem C2_old_grace_rule (old excess : Duration) (l : List RollupInfo)
    (hd : l.Pairwise fun a b => a.cid ≠ b.cid)
    (hclean : ∀ r ∈ l,
      r.delete_rollup = false ∧ r.delete_transactions = false) :
    (∀ r ∈ classify_rollups old excess l,
        (∃ r' ∈ classify_rollups old excess l, r.cid < r'.cid) →
        old ≤ r.age →
        r.delete_rollup = true ∧ r.delete_transactions = true) ∧
    (∀ r ∈ classify_rollups old excess l,
        r.age < old → r.delete_transactions = false) := by
  constructor
  · rintro r hr ⟨r', hr', hcc⟩ hage
    obtain ⟨i, hi, hie⟩ := List.mem_iff_getElem.mp hr
    obtain ⟨j, hj, hje⟩ := List.mem_iff_getElem.mp hr'
    have hin : i < l.length := by simpa using hi
    have hjn : j < l.length := by simpa using hj
    rw [classify_rollups_getElem old excess l i hi
      (by simpa using hin)] at hie
    rw [classify_rollups_getElem old excess l j hj
      (by simpa using hjn)] at hje
    have hij : i < j := by
      by_contra hc
      push_neg at hc
      have hmono := sortRollups_cid_le l (by simpa using hjn)
        (by simpa using hin) hc
      rw [← hie, ← hje, classifyStep_cid, classifyStep_cid] at hcc
      exact absurd hmono (not_le_of_lt hcc)
    have hilt : i < l.length - 1 := by omega
    subst hie
    rw [classifyStep_age] at hage
    exact classifyStep_old_marked old excess l.length i _ hilt hage
  · intro r hr hyoung
    obtain ⟨i, hi, hie⟩ := List.mem_iff_getElem.mp hr
    subst_eqs
    rw [classify_rollups_getElem old excess l i hi
      (by simpa using hi)] at hyoung ⊢
    rw [classifyStep_age] at hyoung
    rw [classifyStep_dt,
      if_neg (by rintro ⟨-, hh⟩; exact absurd hh (not_le_of_lt hyoung))]
    exact (hclean _ (sortRollups_mem.mp (List.getElem_mem _))).2

/-- Witness for C2 at the one-young-one-old scenario. -/
theorem C2_witness :
    ((⟨900, Duration.fromMillis 10000000, "", true, true⟩ :
        RollupInfo).delete_rollup = true ∧
      (⟨900, Duration.fromMillis 10000000, "", true, true⟩ :
        RollupInfo).delete_transactions = true) ∧
    (⟨1000, Duration.fromMillis 100, "", false, false⟩ :
        RollupInfo).delete_transactions = false :=
  ⟨(C2_old_grace_rule (Duration.fromMillis 2000) (Duration.fromMillis 1000)
      [⟨1000, Duration.fromMillis 100, "", false, false⟩,
       ⟨900, Duration.fromMillis 10000000, "", false, false⟩]
      (by decide) (by decide)).1
      ⟨900, Duration.fromMillis 10000000, "", true, true⟩ (by decide)
      ⟨⟨1000, Duration.fromMillis 100, "", false, false⟩,
        by decide, by decide⟩
      (by decide),
    (C2_old_grace_rule (Duration.fromMillis 2000) (Duration.fromMillis 1000)
      [⟨1000, Duration.fromMillis 100, "", false, false⟩,
       ⟨900, Duration.fromMillis 10000000, "", false, false⟩]
      (by decide) (by decide)).2
      ⟨1000, Duration.fromMillis 100, "", false, false⟩ (by decide)
      (by decide)⟩

/-- C3: with more than `EXCESS_ROLLUP_THRESHOLD` rollups of
pairwise-distinct CIDs and unmarked input, each of the
`n - EXCESS_ROLLUP_THRESHOLD` oldest (smallest-CID, i.e. first in the
ascending output) rollups whose age is at least the EXCESS grace period
gets `delete_rollup`; and `delete_transactions` is only ever set by the
OLD rule (so the excess rule never sets it by itself). -/
theorem C3_excess_rule (old excess : Duration) (l : List RollupInfo)
    (hd : l.Pairwise fun a b => a.cid ≠ b.cid)
    (hclean : ∀ r ∈ l,
      r.delete_rollup = false ∧ r.delete_transactions = false)
    (hn : EXCESS_ROLLUP_THRESHOLD < l.length) :
    (∀ (i : Nat) (h2 : i < (classify_rollups old excess l).length),
        i < l.length - EXCESS_ROLLUP_THRESHOLD →
        excess ≤ (classify_rollups old excess l)[i].age →
        (classify_rollups old excess l)[i].delete_rollup = true) ∧
    (∀ r ∈ classify_rollups old excess l,
        r.delete_transactions = true → old ≤ r.age) := by
  constructor
  · intro i h2 hk hage
    rw [classify_rollups_getElem old excess l i h2
      (by simpa using h2)] at hage ⊢
    rw [classifyStep_age] at hage
    exact classifyStep_excess_marked old excess l.length i _ hn hk hage
  · intro r hr hdt
    obtain ⟨i, hi, hie⟩ := List.mem_iff_getElem.mp hr
    subst_eqs
    have hs : i < (sortRollups l).length := by simpa using hi
    rw [classify_rollups_getElem old excess l i hi hs] at hdt ⊢
    rw [classifyStep_dt] at hdt
    rw [classifyStep_age]
    by_cases hc : i < l.length - 1 ∧ old ≤ (sortRollups l)[i].age
    · exact hc.2
    · rw [if_neg hc] at hdt
      rw [(hclean _ (sortRollups_mem.mp (List.getElem_mem _))).2] at hdt
      exact absurd hdt (by simp)

/-- Witness for C3 at the six-rollup excess scenario. -/
theorem C3_witness :
    ((classify_rollups (Duration.fromMillis 2000) (Duration.fromMillis 1000)
        [⟨1, Duration.fromMillis 5000, "", false, false⟩,
         ⟨2, Duration.fromMillis 1900, "", false, false⟩,
         ⟨3, Duration.fromMillis 1800, "", false, false⟩,
         ⟨4, Duration.fromMillis 1700, "", false, false⟩,
         ⟨5, Duration.fromMillis 1600, "", false, false⟩,
         ⟨6, Duration.fromMillis 1500, "", false, false⟩]).get
      ⟨1, by decide⟩).delete_rollup = true :=
  (C3_excess_rule (Duration.fromMillis 2000) (Duration.fromMillis 1000)
      [⟨1, Duration.fromMillis 5000, "", false, false⟩,
       ⟨2, Duration.fromMillis 1900, "", false, false⟩,
       ⟨3, Duration.fromMillis 1800, "", false, false⟩,
       ⟨4, Duration.fromMillis 1700, "", false, false⟩,
       ⟨5, Duration.fromMillis 1600, "", false, false⟩,
       ⟨6, Duration.fromMillis 1500, "", false, false⟩]
      (by decide) (by decide) (by decide)).1
    1 (by decide) (by decide) (by decide)

/-- C10: after `classify_rollups` on an unmarked input list, every rollup
with `delete_transactions` set also has `delete_rollup` set. -/
theorem C10_delete_transactions_implies_delete_rollup
    (old excess : Duration) (l : List RollupInfo)
    (hclean : ∀ r ∈ l,
      r.delete_rollup = false ∧ r.delete_transactions = false) :
    ∀ r ∈ classify_rollups old excess l,
      r.delete_transactions = true → r.delete_rollup = true := by
  intro r hr hdt
  obtain ⟨i, hi, hie⟩ := List.mem_iff_getElem.mp hr
  subst_eqs
  have hs : i < (sortRollups l).length := by simpa using hi
  rw [classify_rollups_getElem old excess l i hi hs] at hdt ⊢
  rw [classifyStep_dt] at hdt
  by_cases hc : i < l.length - 1 ∧ old ≤ (sortRollups l)[i].age
  · exact (classifyStep_old_marked old excess l.length i _ hc.1 hc.2).1
  · rw [if_neg hc] at hdt
    rw [(hclean _ (sortRollups_mem.mp (List.getElem_mem _))).2] at hdt
    exact absurd hdt (by simp)

/-- Witness for C10 at the one-young-one-old scenario. -/
theorem C10_witness :
    (⟨900, Duration.fromMillis 10000000, "", true, true⟩ :
      RollupInfo).delete_rollup = true :=
  C10_delete_transactions_implies_delete_rollup
    (Duration.fromMillis 2000) (Duration.fromMillis 1000)
    [⟨1000, Duration.fromMillis 100, "", false, false⟩,
     ⟨900, Duration.fromMillis 10000000, "", false, false⟩]
    (by decide)
    ⟨900, Duration.fromMillis 10000000, "", true, true⟩ (by decide)
    (by decide)

/-- C4: scenario S1 — six rollups with grace periods 2000 ms (OLD) and
1000 ms (EXCESS): cid 1 gets both marks, cid 2 gets `delete_rollup` only,
cids 3–6 are unmodified, and the output is ascending by cid. -/
theorem C4_classify_excess_scenario :
    classify_rollups (Duration.fromMillis 2000) (Duration.fromMillis 1000)
      [⟨1, Duration.fromMillis 5000, "", false, false⟩,
       ⟨2, Duration.fromMillis 1900, "", false, false⟩,
       ⟨3, Duration.fromMillis 1800, "", false, false⟩,
       ⟨4, Duration.fromMillis 1700, "", false, false⟩,
       ⟨5, Duration.fromMillis 1600, "", false, false⟩,
       ⟨6, Duration.fromMillis 1500, "", false, false⟩] =
      [⟨1, Duration.fromMillis 5000, "", true, true⟩,
       ⟨2, Duration.fromMillis 1900, "", true, false⟩,
       ⟨3, Duration.fromMillis 1800, "", false, false⟩,
       ⟨4, Duration.fromMillis 1700, "", false, false⟩,
       ⟨5, Duration.fromMillis 1600, "", false, false⟩,
       ⟨6, Duration.fromMillis 1500, "", false, false⟩] := by
  decide

/-- C8: `classify_rollups` always leaves the list ascending by CID, and on
permutation inputs (with pairwise-distinct CIDs) it produces identical
output, markings included. -/
theorem C8_sorted_and_perm_invariant (old excess : Duration) :
    (∀ l : List RollupInfo,
        (classify_rollups old excess l).Pairwise fun a b =>
          a.cid ≤ b.cid) ∧
    (∀ l₁ l₂ : List RollupInfo, l₁.Perm l₂ →
        (l₁.Pairwise fun a b => a.cid ≠ b.cid) →
        classify_rollups old excess l₁ = classify_rollups old excess l₂)
    := by
  constructor
  · intro l
    rw [List.pairwise_iff_getElem]
    intro i j hi hj hij
    rw [classify_rollups_getElem old excess l i hi (by simpa using hi),
      classify_rollups_getElem old excess l j hj (by simpa using hj),
      classifyStep_cid, classifyStep_cid]
    exact sortRollups_cid_le l (by simpa using hi) (by simpa using hj)
      (le_of_lt hij)
  · intro l₁ l₂ hperm hd
    have hs : sortRollups l₁ = sortRollups l₂ :=
      List.eq_of_perm_of_sorted
        ((sortRollups_perm l₁).trans
          (hperm.trans (sortRollups_perm l₂).symm))
        (sortRollups_sorted l₁) (sortRollups_sorted l₂)
    rcases l₁ with _ | ⟨a, t⟩
    · rw [hperm.symm.eq_nil]
    · rcases l₂ with _ | ⟨b, u⟩
      · exact absurd hperm.eq_nil (by simp)
      · unfold classify_rollups
        simp only [List.isEmpty_cons, Bool.false_eq_true, if_false]
        rw [hs]

/-- Witness for C8 at a concrete two-element permutation pair. -/
theorem C8_witness :
    ((classify_rollups 1 1
        [⟨1, 0, "", false, false⟩, ⟨2, 0, "", false, false⟩]).Pairwise
      fun a b => a.cid ≤ b.cid) ∧
    classify_rollups 1 1
        [⟨1, 0, "", false, false⟩, ⟨2, 0, "", false, false⟩] =
      classify_rollups 1 1
        [⟨2, 0, "", false, false⟩, ⟨1, 0, "", false, false⟩] :=
  ⟨(C8_sorted_and_perm_invariant 1 1).1
      [⟨1, 0, "", false, false⟩, ⟨2, 0, "", false, false⟩],
    (C8_sorted_and_perm_invariant 1 1).2
      [⟨1, 0, "", false, false⟩, ⟨2, 0, "", false, false⟩]
      [⟨2, 0, "", false, false⟩, ⟨1, 0, "", false, false⟩]
      (List.Perm.swap (⟨2, 0, "", false, false⟩ : RollupInfo)
        (⟨1, 0, "", false, false⟩ : RollupInfo) [])
      (by decide)⟩

/-- C5 counterexample: at a concrete writable select with one old
non-latest rollup marked `delete_transactions` (CID 900), the computed
`expunge_before_cid` is 900, yet the background task never invokes the
message-store GC with floor 900 (it uses floor 0); so the claim that both
GCs get `expunge_before_cid` as the floor is false. The change GC does get
900. -/
theorem C5_counterexample :
    expunge_before_cid
        ((classify_rollups OLD_ROLLUP_GRACE_PERIOD
          EXCESS_ROLLUP_GRACE_PERIOD
          [⟨1000, 0, "b", false, false⟩,
           ⟨900, Duration.fromSecs 172800, "a", false, false⟩]).dropLast) =
      900 ∧
    GcAction.msgGc 900 ∉
      background_task
        ((classify_rollups OLD_ROLLUP_GRACE_PERIOD
          EXCESS_ROLLUP_GRACE_PERIOD
          [⟨1000, 0, "b", false, false⟩,
           ⟨900, Duration.fromSecs 172800, "a", false, false⟩]).dropLast)
        true true ∧
    GcAction.chgGc 900 ∈
      background_task
        ((classify_rollups OLD_ROLLUP_GRACE_PERIOD
          EXCESS_ROLLUP_GRACE_PERIOD
          [⟨1000, 0, "b", false, false⟩,
           ⟨900, Duration.fromSecs 172800, "a", false, false⟩]).dropLast)
        true true := by
  decide

/-- C5 (amended): in the background task of a writable select,
`expunge_before_cid` is computed over the classified non-latest rollups;
the first action is the message-store GC with floor 0, and when it
succeeds the next action is the change GC with `expunge_before_cid` as
the floor. -/
theorem C5_gc_floors (raw : List RollupInfo)
    (rd : RollupInfo → Option MailboxState) (m c : Bool)
    (poll : MailboxState → Except SelectError MailboxState)
    (res : SelectModelResult)
    (h : select raw rd false m c poll = Except.ok res) :
    res.background.head? = some (GcAction.msgGc 0) ∧
    (m = true →
      res.background.tail.head? =
        some (GcAction.chgGc (expunge_before_cid
          ((classify_rollups OLD_ROLLUP_GRACE_PERIOD
            EXCESS_ROLLUP_GRACE_PERIOD raw).dropLast)))) := by
  simp only [select] at h
  cases hp : poll (loaded_state raw rd) <;> rw [hp] at h
  · exact absurd h (by simp)
  · have hres := Except.ok.inj h
    subst hres
    cases m <;>
      simp [background_task]

/-- Witness for the amended C5 at a concrete marked rollup list. -/
theorem C5_witness :
    (({ state := MailboxState.mk_empty, recency_frontier := none,
        rollup_reads := [⟨1000, 0, "b", false, false⟩],
        background :=
          [GcAction.msgGc 0, GcAction.chgGc 900,
           GcAction.removeRollup "a"] } :
      SelectModelResult)).background.head? = some (GcAction.msgGc 0) ∧
    (true = true →
      (({ state := MailboxState.mk_empty, recency_frontier := none,
          rollup_reads := [⟨1000, 0, "b", false, false⟩],
          background :=
            [GcAction.msgGc 0, GcAction.chgGc 900,
             GcAction.removeRollup "a"] } :
        SelectModelResult)).background.tail.head? =
        some (GcAction.chgGc (expunge_before_cid
          (List.dropLast (classify_rollups OLD_ROLLUP_GRACE_PERIOD
            EXCESS_ROLLUP_GRACE_PERIOD
            [⟨1000, 0, "b", false, false⟩,
             ⟨900, Duration.fromSecs 172800, "a", false, false⟩]))))) :=
  C5_gc_floors
    [⟨1000, 0, "b", false, false⟩,
     ⟨900, Duration.fromSecs 172800, "a", false, false⟩]
    (fun _ => none) true true (fun st => Except.ok st)
    { state := MailboxState.mk_empty, recency_frontier := none,
      rollup_reads := [⟨1000, 0, "b", false, false⟩],
      background :=
        [GcAction.msgGc 0, GcAction.chgGc 900,
         GcAction.removeRollup "a"] }
    rfl

/-- C6: in the background task, rollup files are removed only after both
GCs succeeded and the removals come after the change GC in the trace; a
message-GC failure ends the task with nothing further; a change-GC failure
prevents every removal; and the outcome `select` returns to its caller
(state, frontier, attempted reads) is independent of the GC outcomes, so
background errors are never surfaced. -/
theorem C6_background_failure_containment (raw : List RollupInfo)
    (rd : RollupInfo → Option MailboxState)
    (poll : MailboxState → Except SelectError MailboxState) :
    (∀ (rollups : List RollupInfo) (m c : Bool) (p : String),
        GcAction.removeRollup p ∈ background_task rollups m c →
        m = true ∧ c = true) ∧
    (∀ (rollups : List RollupInfo) (c : Bool),
        background_task rollups false c = [GcAction.msgGc 0]) ∧
    (∀ (rollups : List RollupInfo) (p : String),
        GcAction.removeRollup p ∉ background_task rollups true false) ∧
    (∀ rollups : List RollupInfo,
        background_task rollups true true =
          GcAction.msgGc 0 ::
            GcAction.chgGc (expunge_before_cid rollups) ::
              (rollups.filter fun r => r.delete_rollup).map
                fun r => GcAction.removeRollup r.path) ∧
    (∀ (ro m₁ c₁ m₂ c₂ : Bool),
        (select raw rd ro m₁ c₁ poll).map
            (fun r => (r.state, r.recency_frontier, r.rollup_reads)) =
          (select raw rd ro m₂ c₂ poll).map
            (fun r => (r.state, r.recency_frontier, r.rollup_reads))) := by
  refine ⟨?_, ?_, ?_, ?_, ?_⟩
  · intro rollups m c p hmem
    cases m <;> cases c <;> simp [background_task] at hmem ⊢
  · intro rollups c
    simp [background_task]
  · intro rollups p
    simp [background_task]
  · intro rollups
    simp [background_task]
  · intro ro m₁ c₁ m₂ c₂
    simp only [select]
    cases hp : poll (loaded_state raw rd) <;> rfl

/-- Witness for C6: a removal present in a both-GCs-succeeded trace. -/
theorem C6_witness :
    (true = true ∧ true = true) ∧
    background_task [] false true = [GcAction.msgGc 0] :=
  ⟨(C6_background_failure_containment [] (fun _ => none)
        (fun st => Except.ok st)).1
      [⟨900, Duration.fromSecs 172800, "a", true, true⟩] true true "a"
      (by decide),
    (C6_background_failure_containment [] (fun _ => none)
        (fun st => Except.ok st)).2.1 [] true⟩

/-- C7: when deserialising the greatest rollup fails, select logs and
falls back: it polls from the empty state (full replay), attempts no
other rollup read, and still returns Ok. -/
theorem C7_rollup_read_failure_fallback (raw : List RollupInfo)
    (rd : RollupInfo → Option MailboxState) (ro m c : Bool)
    (poll : MailboxState → Except SelectError MailboxState)
    (r0 : RollupInfo) (st : MailboxState)
    (hlast : (classify_rollups OLD_ROLLUP_GRACE_PERIOD
        EXCESS_ROLLUP_GRACE_PERIOD raw).getLast? = some r0)
    (hread : rd r0 = none)
    (hpoll : poll MailboxState.mk_empty = Except.ok st) :
    select raw rd ro m c poll =
      Except.ok
        { state := st
          recency_frontier := none
          rollup_reads := [r0]
          background :=
            if ro then []
            else background_task ((classify_rollups OLD_ROLLUP_GRACE_PERIOD
              EXCESS_ROLLUP_GRACE_PERIOD raw).dropLast) m c } := by
  have hload : loaded_state raw rd = MailboxState.mk_empty := by
    unfold loaded_state
    rw [hlast]
    simp only [hread]
  simp only [select, hload, hpoll, hlast]
  rfl

/-- Witness for C7 at a single unreadable rollup. -/
theorem C7_witness :
    select [⟨1, 0, "a", false, false⟩] (fun _ => none) true true true
        (fun st => Except.ok st) =
      Except.ok
        { state := MailboxState.mk_empty
          recency_frontier := none
          rollup_reads := [⟨1, 0, "a", false, false⟩]
          background :=
            if true then []
            else background_task ((classify_rollups OLD_ROLLUP_GRACE_PERIOD
              EXCESS_ROLLUP_GRACE_PERIOD
              [⟨1, 0, "a", false, false⟩]).dropLast) true true } :=
  C7_rollup_read_failure_fallback [⟨1, 0, "a", false, false⟩]
    (fun _ => none) true true true (fun st => Except.ok st)
    ⟨1, 0, "a", false, false⟩ MailboxState.mk_empty
    (by decide) rfl rfl

/-- C9: the recency frontier returned by select is the UID component of
the loaded (pre-poll) state's max modseq — absent when there is none — so
it is fixed before the initial poll replays post-rollup transactions
(the right-hand side does not involve `poll`). -/
theorem C9_recency_frontier_from_loaded_state (raw : List RollupInfo)
    (rd : RollupInfo → Option MailboxState) (ro m c : Bool)
    (poll : MailboxState → Except SelectError MailboxState)
    (res : SelectModelResult)
    (h : select raw rd ro m c poll = Except.ok res) :
    res.recency_frontier =
      (loaded_state raw rd).max_modseq.map Modseq.uid ∧
    ((loaded_state raw rd).max_modseq = none →
      res.recency_frontier = none) := by
  simp only [select] at h
  cases hp : poll (loaded_state raw rd) <;> rw [hp] at h
  · exact absurd h (by simp)
  · have hres := Except.ok.inj h
    subst hres
    exact ⟨rfl, fun hn => by simp [hn]⟩

/-- Witness for C9 at a rollup whose state has max modseq (5, 3). -/
theorem C9_witness :
    (({ state := ⟨some ⟨5, 3⟩⟩, recency_frontier := some 5,
        rollup_reads := [⟨1, 0, "a", false, false⟩], background := [] } :
      SelectModelResult)).recency_frontier =
      (loaded_state [⟨1, 0, "a", false, false⟩]
        (fun _ => some ⟨some ⟨5, 3⟩⟩)).max_modseq.map Modseq.uid ∧
    ((loaded_state [⟨1, 0, "a", false, false⟩]
        (fun _ => some ⟨some ⟨5, 3⟩⟩)).max_modseq = none →
      (({ state := ⟨some ⟨5, 3⟩⟩, recency_frontier := some 5,
          rollup_reads := [⟨1, 0, "a", false, false⟩], background := [] } :
        SelectModelResult)).recency_frontier = none) :=
  C9_recency_frontier_from_loaded_state [⟨1, 0, "a", false, false⟩]
    (fun _ => some ⟨some ⟨5, 3⟩⟩) true true true (fun st => Except.ok st)
    { state := ⟨some ⟨5, 3⟩⟩, recency_frontier := some 5,
      rollup_reads := [⟨1, 0, "a", false, false⟩], background := [] }
    rfl

end Crymap
